import Mathlib

/-!
Shallow embedding of the filter-evaluation core of the `obsidian-discrete`
plugin (the `DiscretePlugin` variant in `src/src/settings.ts`, whose
evaluation functions are `filterByMetadata`, `evaluateFilter`,
`shouldFileBeVisible`, together with the settings-tab removal handler
`filters.splice(index, 1)`), and proofs of the specification claims
about it.

Front-matter values are modelled as a tagged union (string / number /
boolean / null / list).  JS numbers are modelled as exact fractions
`JsNumber` (an integer numerator with a natural denominator, compared by
cross-multiplication and related to `ℚ` by `JsNumber.toRat`), with `none`
standing for NaN wherever a coercion can fail.  The host builtins
`Number(...)`, `String(...)`, `.toLowerCase()` and `.includes(...)` are
modelled explicitly below.
-/

namespace Discrete

/-- A JS number as an exact fraction `num / den`.  Parsing a finite
decimal literal always produces a positive denominator (a power of ten);
comparisons are by cross-multiplication so they are exact. -/
structure JsNumber where
  num : Int
  den : Nat
deriving DecidableEq, Repr

/-- The rational value of a `JsNumber`. -/
def JsNumber.toRat (x : JsNumber) : ℚ := (x.num : ℚ) / (x.den : ℚ)

/-- Numeric equality by cross-multiplication. -/
def JsNumber.beqNum (x y : JsNumber) : Bool :=
  x.num * (y.den : Int) == y.num * (x.den : Int)

/-- Strict numeric `<` by cross-multiplication. -/
def JsNumber.blt (x y : JsNumber) : Bool :=
  decide (x.num * (y.den : Int) < y.num * (x.den : Int))

/-- A front-matter value as it appears in a metadata record:
JS string, number, boolean, `null`, or array. -/
inductive Value where
  | str (s : String)
  | num (x : JsNumber)
  | bool (b : Bool)
  | null
  | list (vs : List Value)

/-- A metadata record: the host's decoded front-matter, a key → value
mapping with the insertion order of `Object.keys` preserved. -/
def Record := List (String × Value)

/-- `metadata[key]`: first binding of `key`, `none` when the key is absent
(JS `undefined`). -/
def jsLookup : Record → String → Option Value
  | [], _ => none
  | (k, v) :: rest, key => if k = key then some v else jsLookup rest key

/-- The `operator` union of `DiscreteFilter`
(`'equals' | 'contains' | 'exists' | 'includes' | 'greater' | 'less'`). -/
inductive FilterOp where
  | equals
  | contains
  | «exists»
  | includes
  | greater
  | less
deriving DecidableEq, Repr

/-- The `type` union of `DiscreteFilter`
(`'string' | 'number' | 'array' | 'boolean'`). -/
inductive FilterTy where
  | string
  | number
  | array
  | boolean
deriving DecidableEq, Repr

/-- The `DiscreteFilter` interface: one predicate
`{ key, value, operator, type }`. -/
structure Filter where
  key : String
  value : String
  operator : FilterOp
  type : FilterTy
deriving DecidableEq, Repr

/-- The `DiscreteSettings` interface (the persisted Filter Set). -/
structure DiscreteSettings where
  filters : List Filter
  hideMatches : Bool
  combineWithAnd : Bool
  enableExplorerFilter : Bool
deriving DecidableEq, Repr

/-- Model of JS `.toLowerCase()` (ASCII range, the only one exercised). -/
def jsToLower (s : String) : String :=
  String.mk (s.toList.map Char.toLower)

/-- JS number printing restricted to the values that arise here: integers
print as decimal numerals; a fraction whose denominator divides a power of
ten (the image of a finite decimal literal) prints as that decimal with
trailing fraction zeros trimmed; any other fraction falls back to
`num/den` (such values are not produced by parsing). -/
def jsNumToString (x : JsNumber) : String :=
  let sign := if x.num < 0 then "-" else ""
  let n := x.num.natAbs
  if x.den = 1 then sign ++ Nat.repr n
  else
    match (List.range 40).find? (fun k => x.den ∣ 10 ^ k) with
    | some k =>
      let scaled := n * (10 ^ k / x.den)
      let ds := (Nat.repr scaled).toList
      let ds := if ds.length ≤ k then List.replicate (k + 1 - ds.length) '0' ++ ds else ds
      let intDigits := ds.take (ds.length - k)
      let fracDigits := ((ds.drop (ds.length - k)).reverse.dropWhile (fun c => c = '0')).reverse
      if fracDigits.isEmpty then sign ++ String.mk intDigits
      else sign ++ String.mk intDigits ++ "." ++ String.mk fracDigits
    | none => sign ++ Nat.repr n ++ "/" ++ Nat.repr x.den

/-- `String(v)` / `v.toString()` for a non-null, non-undefined value.
An array stringifies as its elements joined with `","`
(`Array.prototype.toString`), where a `null` element contributes the
empty string. -/
def jsStringOf : Value → String
  | .str s => s
  | .num x => jsNumToString x
  | .bool b => bif b then "true" else "false"
  | .null => "null"
  | .list vs => String.intercalate "," (jsStringOfElems vs)
where
  /-- Element-wise stringification used by `Array.prototype.join`:
  a `null` element contributes the empty string, every other element its
  `String(...)` form. -/
  jsStringOfElems : List Value → List String
  | [] => []
  | .null :: vs => "" :: jsStringOfElems vs
  | v :: vs => jsStringOf v :: jsStringOfElems vs

/-- Whitespace stripped by JS string-to-number coercion. -/
def isJsSpace (c : Char) : Bool :=
  c = ' ' || c = '\t' || c = '\n' || c = '\r'

/-- Value of a digit string, most significant first. -/
def digitsToNat (cs : List Char) : Nat :=
  cs.foldl (fun acc c => acc * 10 + (c.toNat - '0'.toNat)) 0

/-- Model of the JS `Number(string)` coercion on its decimal-literal
fragment: surrounding whitespace is stripped, the empty string is `0`, an
optionally signed decimal numeral with an optional fraction part parses to
its exact value, and every other string is NaN (`none`).  (Exponent, hex
and `Infinity` forms never arise in this development and are mapped to
NaN.) -/
def parseJsNumber (s : String) : Option JsNumber :=
  let cs := ((s.toList.dropWhile isJsSpace).reverse.dropWhile isJsSpace).reverse
  if cs.isEmpty then some ⟨0, 1⟩
  else
    let signBody : Int × List Char :=
      match cs with
      | '-' :: rest => (-1, rest)
      | '+' :: rest => (1, rest)
      | _ => (1, cs)
    let sign := signBody.1
    let body := signBody.2
    let intPart := body.takeWhile (fun c => c ≠ '.')
    match body.dropWhile (fun c => c ≠ '.') with
    | [] =>
      if body.isEmpty then none
      else if body.all Char.isDigit then some ⟨sign * digitsToNat body, 1⟩
      else none
    | _ :: frac =>
      if (intPart.all Char.isDigit && frac.all Char.isDigit)
          && !(intPart.isEmpty && frac.isEmpty) then
        some ⟨sign * (digitsToNat intPart * 10 ^ frac.length + digitsToNat frac),
          10 ^ frac.length⟩
      else none

/-- `Number(v)` on a value: numbers are themselves, booleans are 0/1,
strings parse per `parseJsNumber`, `null` is 0, and an array coerces via
its string form.  `none` is NaN. -/
def jsToNumber : Value → Option JsNumber
  | .num x => some x
  | .bool b => some ⟨bif b then 1 else 0, 1⟩
  | .str s => parseJsNumber s
  | .null => some ⟨0, 1⟩
  | .list vs => parseJsNumber (jsStringOf (.list vs))

/-- JS `===` on two numbers; any comparison with NaN is false. -/
def jsNumEq : Option JsNumber → Option JsNumber → Bool
  | some x, some y => JsNumber.beqNum x y
  | _, _ => false

/-- JS `>` on two numbers; any comparison with NaN is false. -/
def jsGt : Option JsNumber → Option JsNumber → Bool
  | some x, some y => JsNumber.blt y x
  | _, _ => false

/-- JS `<` on two numbers; any comparison with NaN is false. -/
def jsLt : Option JsNumber → Option JsNumber → Bool
  | some x, some y => JsNumber.blt x y
  | _, _ => false

/-- Is `needle` a prefix of `hay` (character lists)? -/
def charPrefixB : List Char → List Char → Bool
  | [], _ => true
  | _ :: _, [] => false
  | a :: as, b :: bs => a = b && charPrefixB as bs

/-- Does `hay` contain `needle` as a contiguous substring? -/
def hasSubstr : List Char → List Char → Bool
  | needle, [] => needle.isEmpty
  | needle, c :: rest => charPrefixB needle (c :: rest) || hasSubstr needle rest

/-- JS `a.includes(b)`: substring containment. -/
def strContains (a b : String) : Bool :=
  hasSubstr b.toList a.toList

/-- `evaluateFilter(metadata, filter)` (src/src/settings.ts:630-667):
one predicate evaluated against one record. -/
def evaluateFilter (metadata : Record) (filter : Filter) : Bool :=
  let value? := jsLookup metadata filter.key
  -- For 'exists', just check that the key exists and has a value:
  -- `value !== undefined && value !== null`.
  if filter.operator = FilterOp.«exists» then
    match value? with
    | none => false
    | some .null => false
    | some _ => true
  else
    -- For all other operators, first check that the value exists.
    match value? with
    | none => false
    | some .null => false
    | some value =>
      match filter.operator with
      | .equals =>
        if filter.type = FilterTy.number then
          jsNumEq (jsToNumber value) (parseJsNumber filter.value)
        else if filter.type = FilterTy.boolean then
          jsToLower (jsStringOf value) == jsToLower filter.value
        else
          jsToLower (jsStringOf value) == jsToLower filter.value
      | .contains =>
          strContains (jsToLower (jsStringOf value)) (jsToLower filter.value)
      | .includes =>
        match value with
        | .list vs =>
            vs.any (fun v => jsToLower (jsStringOf v) == jsToLower filter.value)
        | _ => false
      | .greater => jsGt (jsToNumber value) (parseJsNumber filter.value)
      | .less => jsLt (jsToNumber value) (parseJsNumber filter.value)
      | .«exists» => false   -- unreachable here; the switch default

/-- `shouldFileBeVisible(file)` (src/src/settings.ts:669-686), with the
host's `getFileCache(file)?.frontmatter` lookup made explicit as an
`Option Record` argument (`none` = the host found no front-matter). -/
def shouldFileBeVisible (settings : DiscreteSettings)
    (metadata? : Option Record) : Bool :=
  match metadata? with
  -- If no metadata and hideMatches is true, show the file;
  -- if no metadata and hideMatches is false, hide the file.
  | none => settings.hideMatches
  | some metadata =>
    let matchesAll := settings.filters.all (fun f => evaluateFilter metadata f)
    let matchesAny := settings.filters.any (fun f => evaluateFilter metadata f)
    let isMatch := if settings.combineWithAnd then matchesAll else matchesAny
    -- If hideMatches is true we hide matching files,
    -- if hideMatches is false we hide non-matching files.
    if settings.hideMatches then !isMatch else isMatch

/-- `filterByMetadata(metadata)` (src/src/settings.ts:608-628), as a
function from the current `filters` list to the new one.  `none` models a
thrown `TypeError`: for an empty record `Object.keys(metadata)[0]` is
`undefined`, so `value` is `undefined` and `value.toString()` throws; for
a first value of `null`, `null.toString()` throws.  Both throws happen
while building the new filter, before `this.settings.filters.push`. -/
def filterByMetadata (filters : List Filter) (metadata : Record) :
    Option (List Filter) :=
  match metadata with
  | [] => none
  | (key, value) :: _ =>
    match value with
    | .null => none
    | .list vs =>
        some (filters ++
          [⟨key, jsStringOf (.list vs), FilterOp.includes, FilterTy.array⟩])
    | .num x =>
        some (filters ++
          [⟨key, jsStringOf (.num x), FilterOp.equals, FilterTy.number⟩])
    | .bool b =>
        some (filters ++
          [⟨key, jsStringOf (.bool b), FilterOp.equals, FilterTy.boolean⟩])
    | .str s =>
        some (filters ++
          [⟨key, jsStringOf (.str s), FilterOp.contains, FilterTy.string⟩])

/-- The effect of a `filterByMetadata` call on the settings object: on a
throw the exception propagates before the `push`, so the settings are
untouched. -/
def applyFilterByMetadata (s : DiscreteSettings) (metadata : Record) :
    DiscreteSettings :=
  match filterByMetadata s.filters metadata with
  | none => s
  | some fs => { s with filters := fs }

/-- The settings-tab remove handler `this.plugin.settings.filters.splice(index, 1)`
(src/src/settings.ts:232), with JS `Array.prototype.splice` index
semantics: a negative index counts from the end and clamps at 0, an index
beyond the length clamps at the length (removing nothing). -/
def removePredicate (filters : List Filter) (index : Int) : List Filter :=
  let len : Int := filters.length
  let actualStart : Nat :=
    if index < 0 then (max (len + index) 0).toNat else (min index len).toNat
  filters.take actualStart ++ filters.drop (actualStart + 1)

/-! ## Shared helper lemmas -/

/-- `jsGt` is the strict comparison of two parses, false on NaN. -/
theorem jsGt_eq_true_iff (a b : Option JsNumber) :
    jsGt a b = true ↔ ∃ x y, a = some x ∧ b = some y ∧ JsNumber.blt y x = true := by
  cases a <;> cases b <;> simp [jsGt]

/-- `jsLt` is the strict comparison of two parses, false on NaN. -/
theorem jsLt_eq_true_iff (a b : Option JsNumber) :
    jsLt a b = true ↔ ∃ x y, a = some x ∧ b = some y ∧ JsNumber.blt x y = true := by
  cases a <;> cases b <;> simp [jsLt]

/-! ## Claim theorems -/

/-- C1: for a file whose metadata record is absent (the host returned no
front-matter), the visibility decision equals the `hideMatches` flag,
whatever the configured predicates and `combineWithAnd` are. -/
theorem absent_metadata_default (settings : DiscreteSettings) :
    shouldFileBeVisible settings none = settings.hideMatches := rfl

/-- C2: with metadata present and all other Filter Set fields equal, the
visibility computed with `hideMatches = true` is the boolean negation of
the one computed with `hideMatches = false`
(`visible = hideMatches ? !matches : matches`). -/
theorem hide_show_inversion (filters : List Filter) (combineWithAnd enable : Bool)
    (metadata : Record) :
    shouldFileBeVisible ⟨filters, true, combineWithAnd, enable⟩ (some metadata)
      = !(shouldFileBeVisible ⟨filters, false, combineWithAnd, enable⟩ (some metadata)) := by
  simp [shouldFileBeVisible]

/-- C3: with metadata present and a non-empty predicate sequence, the
combined match result (visibility under `hideMatches = false`) is the
conjunction over all predicates when `combineWithAnd = true` and the
disjunction when `combineWithAnd = false`; in particular one true and one
false predicate combine to `false` under AND and `true` under OR. -/
theorem and_or_combination (metadata : Record) (filters : List Filter) (e : Bool)
    (_hne : filters ≠ []) :
    (shouldFileBeVisible ⟨filters, false, true, e⟩ (some metadata)
        = filters.all (fun f => evaluateFilter metadata f))
    ∧ (shouldFileBeVisible ⟨filters, false, false, e⟩ (some metadata)
        = filters.any (fun f => evaluateFilter metadata f))
    ∧ ∀ p1 p2 : Filter,
        evaluateFilter metadata p1 = true → evaluateFilter metadata p2 = false →
        shouldFileBeVisible ⟨[p1, p2], false, true, e⟩ (some metadata) = false
        ∧ shouldFileBeVisible ⟨[p1, p2], false, false, e⟩ (some metadata) = true := by
  refine ⟨by simp [shouldFileBeVisible], by simp [shouldFileBeVisible], ?_⟩
  intro p1 p2 h1 h2
  constructor <;> simp [shouldFileBeVisible, h1, h2]

/-- Witness for C3 at a concrete record and two concrete predicates. -/
theorem and_or_combination_witness :
    (([⟨"s", "done", FilterOp.equals, FilterTy.string⟩,
       ⟨"s", "x", FilterOp.equals, FilterTy.string⟩] : List Filter) ≠ [])
    ∧ shouldFileBeVisible
        ⟨[⟨"s", "done", FilterOp.equals, FilterTy.string⟩,
          ⟨"s", "x", FilterOp.equals, FilterTy.string⟩], false, true, true⟩
        (some [("s", Value.str "done")]) = false
    ∧ shouldFileBeVisible
        ⟨[⟨"s", "done", FilterOp.equals, FilterTy.string⟩,
          ⟨"s", "x", FilterOp.equals, FilterTy.string⟩], false, false, true⟩
        (some [("s", Value.str "done")]) = true := by
  have h := and_or_combination [("s", Value.str "done")]
    [⟨"s", "done", FilterOp.equals, FilterTy.string⟩,
     ⟨"s", "x", FilterOp.equals, FilterTy.string⟩] true (by decide)
  exact ⟨by decide, (h.2.2 _ _ (by decide) (by decide)).1,
    (h.2.2 _ _ (by decide) (by decide)).2⟩

/-- C4: an `exists` predicate is true exactly when the record has the key
with a present, non-null value, and its `type`/`value` fields never
affect the result. -/
theorem exists_ignores_value_type (metadata : Record) (k v v' : String)
    (ty ty' : FilterTy) :
    (evaluateFilter metadata ⟨k, v, FilterOp.«exists», ty⟩ = true
      ↔ ∃ w, jsLookup metadata k = some w ∧ w ≠ Value.null)
    ∧ evaluateFilter metadata ⟨k, v, FilterOp.«exists», ty⟩
        = evaluateFilter metadata ⟨k, v', FilterOp.«exists», ty'⟩ := by
  unfold evaluateFilter
  cases h : jsLookup metadata k
  · simp [h]
  · rename_i w
    cases w <;> simp [h]

/-- C5: for every operator other than `exists`, a key that is absent or
bound to `null` makes the predicate evaluate to false, whatever the
predicate's `type` and `value` are. -/
theorem missing_key_no_match (metadata : Record) (filter : Filter)
    (hop : filter.operator ≠ FilterOp.«exists»)
    (hmiss : jsLookup metadata filter.key = none
      ∨ jsLookup metadata filter.key = some Value.null) :
    evaluateFilter metadata filter = false := by
  unfold evaluateFilter
  rcases hmiss with h | h <;> simp [h, hop]

/-- Witness for C5 on the empty record with an `equals` predicate. -/
theorem missing_key_no_match_witness :
    ((⟨"k", "v", FilterOp.equals, FilterTy.string⟩ : Filter).operator
      ≠ FilterOp.«exists»)
    ∧ evaluateFilter [] ⟨"k", "v", FilterOp.equals, FilterTy.string⟩ = false :=
  ⟨by decide, missing_key_no_match [] _ (by decide) (Or.inl rfl)⟩

/-- C8: on a record with at least one key, the quick-filter appends
exactly one predicate inferred from the first key/value pair
(list → includes/array, number → equals/number, boolean →
equals/boolean, anything else → contains/string), whose `value` field is
the string form of the record value, and every existing predicate is kept
unchanged (the new list is the old list with one element appended). -/
theorem quick_filter_inference :
    (∀ (filters : List Filter) (k : String) (vs : List Value) (rest : List (String × Value)),
      filterByMetadata filters ((k, Value.list vs) :: rest)
        = some (filters
            ++ [⟨k, jsStringOf (Value.list vs), FilterOp.includes, FilterTy.array⟩]))
    ∧ (∀ (filters : List Filter) (k : String) (x : JsNumber) (rest : List (String × Value)),
      filterByMetadata filters ((k, Value.num x) :: rest)
        = some (filters
            ++ [⟨k, jsNumToString x, FilterOp.equals, FilterTy.number⟩]))
    ∧ (∀ (filters : List Filter) (k : String) (b : Bool) (rest : List (String × Value)),
      filterByMetadata filters ((k, Value.bool b) :: rest)
        = some (filters
            ++ [⟨k, bif b then "true" else "false", FilterOp.equals, FilterTy.boolean⟩]))
    ∧ (∀ (filters : List Filter) (k s : String) (rest : List (String × Value)),
      filterByMetadata filters ((k, Value.str s) :: rest)
        = some (filters ++ [⟨k, s, FilterOp.contains, FilterTy.string⟩]))
    ∧ (∀ (filters : List Filter) (metadata : Record) (r : List Filter),
      filterByMetadata filters metadata = some r → ∃ p, r = filters ++ [p]) := by
  refine ⟨fun _ _ _ _ => rfl, fun _ _ _ _ => rfl, fun _ _ _ _ => rfl,
    fun _ _ _ _ => rfl, ?_⟩
  intro filters metadata r h
  match metadata with
  | [] => simp [filterByMetadata] at h
  | (k, v) :: rest =>
    cases v <;> simp [filterByMetadata] at h <;> exact ⟨_, h.symm⟩

/-- Witness for C8's append-only conjunct at a concrete list record. -/
theorem quick_filter_inference_witness :
    filterByMetadata [] [("tags", Value.list [Value.str "a", Value.str "b"])]
      = some [⟨"tags", "a,b", FilterOp.includes, FilterTy.array⟩]
    ∧ ∃ p, ([⟨"tags", "a,b", FilterOp.includes, FilterTy.array⟩] : List Filter)
        = [] ++ [p] :=
  ⟨by decide,
   quick_filter_inference.2.2.2.2 []
     [("tags", Value.list [Value.str "a", Value.str "b"])]
     [⟨"tags", "a,b", FilterOp.includes, FilterTy.array⟩] (by decide)⟩

/-- C10: on the empty metadata record the quick-filter operation throws
while stringifying the absent first value, before the `push`, so no
predicate is appended and the settings are unchanged. -/
theorem quick_filter_empty_record_atomic (filters : List Filter)
    (s : DiscreteSettings) :
    filterByMetadata filters [] = none ∧ applyFilterByMetadata s [] = s :=
  ⟨rfl, rfl⟩

/-- C9 counterexample: at index `-1` on a one-predicate sequence the
removal operation (JS `splice(index, 1)`) removes the last element rather
than failing and leaving the sequence unchanged, refuting the claim's
out-of-range clause. -/
theorem remove_predicate_counterexample :
    removePredicate [⟨"a", "", FilterOp.equals, FilterTy.string⟩] (-1)
      ≠ [⟨"a", "", FilterOp.equals, FilterTy.string⟩] := by decide

/-- C9 (amended): `removePredicate` never signals a failure; an in-range
index removes exactly that element (shifting the rest down), an index at
or beyond the length leaves the sequence unchanged, and index `-1`
removes the last element. -/
theorem remove_predicate_splice :
    (∀ (filters : List Filter) (i : Nat), i < filters.length →
        removePredicate filters (i : Int) = filters.eraseIdx i)
    ∧ (∀ (filters : List Filter) (i : Int), (filters.length : Int) ≤ i →
        removePredicate filters i = filters)
    ∧ (∀ filters : List Filter, removePredicate filters (-1) = filters.dropLast) := by
  refine ⟨?_, ?_, ?_⟩
  · intro filters i hi
    simp only [removePredicate]
    have hstart : (if (i : Int) < 0
        then (((filters.length : Int) + i) ⊔ 0).toNat
        else ((i : Int) ⊓ (filters.length : Int)).toNat) = i := by
      rw [if_neg (by omega)]
      omega
    rw [hstart, List.eraseIdx_eq_take_drop_succ]
  · intro filters i hi
    simp only [removePredicate]
    have hstart : (if i < 0
        then (((filters.length : Int) + i) ⊔ 0).toNat
        else (i ⊓ (filters.length : Int)).toNat) = filters.length := by
      rw [if_neg (by omega)]
      omega
    rw [hstart, List.take_length]
    have hdrop : filters.drop (filters.length + 1) = [] :=
      List.drop_eq_nil_of_le (by omega)
    rw [hdrop, List.append_nil]
  · intro filters
    simp only [removePredicate]
    have hstart : (if (-1 : Int) < 0
        then (((filters.length : Int) + -1) ⊔ 0).toNat
        else ((-1 : Int) ⊓ (filters.length : Int)).toNat) = filters.length - 1 := by
      rw [if_pos (by omega)]
      omega
    rw [hstart, List.dropLast_eq_take]
    have hdrop : filters.drop (filters.length - 1 + 1) = [] :=
      List.drop_eq_nil_of_le (by omega)
    rw [hdrop, List.append_nil]

/-- C6: the text comparisons of `evaluateFilter` (equals with a
non-number type, and contains) are case-insensitive: replacing the
predicate's comparison value, or the record's string value, by any string
with the same lowercase form leaves the result unchanged; in particular
`"Foo"` equals `"foo"` and contains `"OO"`. -/
theorem case_insensitive_text_comparisons :
    (∀ (metadata : Record) (filter : Filter) (s : String),
      (filter.operator = FilterOp.contains
        ∨ (filter.operator = FilterOp.equals ∧ filter.type ≠ FilterTy.number)) →
      jsToLower s = jsToLower filter.value →
      evaluateFilter metadata { filter with value := s }
        = evaluateFilter metadata filter)
    ∧ (∀ (k a b : String) (rest : List (String × Value)) (filter : Filter),
      (filter.operator = FilterOp.contains
        ∨ (filter.operator = FilterOp.equals ∧ filter.type ≠ FilterTy.number)) →
      filter.key = k →
      jsToLower a = jsToLower b →
      evaluateFilter ((k, Value.str a) :: rest) filter
        = evaluateFilter ((k, Value.str b) :: rest) filter)
    ∧ evaluateFilter [("k", Value.str "Foo")]
        ⟨"k", "foo", FilterOp.equals, FilterTy.string⟩ = true
    ∧ evaluateFilter [("k", Value.str "Foo")]
        ⟨"k", "OO", FilterOp.contains, FilterTy.string⟩ = true := by
  refine ⟨?_, ?_, by decide, by decide⟩
  · intro metadata filter s hop hcase
    obtain ⟨key, val, op, ty⟩ := filter
    simp only at hop hcase
    rcases hop with hop | ⟨hop, hty⟩ <;> subst hop <;>
      simp only [evaluateFilter] <;>
      cases jsLookup metadata key with
      | none => rfl
      | some w =>
        cases w <;> simp_all [evaluateFilter]
  · intro k a b rest filter hop hk hcase
    obtain ⟨key, val, op, ty⟩ := filter
    simp only at hop hk
    subst hk
    rcases hop with hop | ⟨hop, hty⟩ <;> subst hop <;>
      simp_all [evaluateFilter, jsLookup, jsStringOf]

/-- Witness for C6's invariance clauses at concrete inputs. -/
theorem case_insensitive_text_comparisons_witness :
    evaluateFilter [("k", Value.str "x")] ⟨"k", "abc", FilterOp.contains, FilterTy.string⟩
      = evaluateFilter [("k", Value.str "x")] ⟨"k", "ABC", FilterOp.contains, FilterTy.string⟩
    ∧ evaluateFilter [("k", Value.str "Done")] ⟨"k", "done", FilterOp.equals, FilterTy.string⟩
      = evaluateFilter [("k", Value.str "dOnE")] ⟨"k", "done", FilterOp.equals, FilterTy.string⟩ :=
  ⟨case_insensitive_text_comparisons.1
      [("k", Value.str "x")] ⟨"k", "ABC", FilterOp.contains, FilterTy.string⟩
      "abc" (Or.inl rfl) (by decide),
   case_insensitive_text_comparisons.2.1
      "k" "Done" "dOnE" [] ⟨"k", "done", FilterOp.equals, FilterTy.string⟩
      (Or.inr ⟨rfl, by decide⟩) rfl (by decide)⟩

/-- C7: `greater`/`less` on a present, non-null value hold exactly when
both sides coerce to numbers (`Number(raw)`, `Number(filter.value)`) and
the strict comparison holds between them; a NaN on either side makes the
predicate false rather than an error, as in the concrete
`{k: "abc"} greater "1"` case.  Cross-multiplied comparison agrees with
the rational order whenever the denominators are positive. -/
theorem numeric_comparison_nan_safe :
    (∀ (metadata : Record) (filter : Filter) (w : Value),
      jsLookup metadata filter.key = some w → w ≠ Value.null →
      filter.operator = FilterOp.greater →
      (evaluateFilter metadata filter = true
        ↔ ∃ x y, jsToNumber w = some x ∧ parseJsNumber filter.value = some y
            ∧ JsNumber.blt y x = true))
    ∧ (∀ (metadata : Record) (filter : Filter) (w : Value),
      jsLookup metadata filter.key = some w → w ≠ Value.null →
      filter.operator = FilterOp.less →
      (evaluateFilter metadata filter = true
        ↔ ∃ x y, jsToNumber w = some x ∧ parseJsNumber filter.value = some y
            ∧ JsNumber.blt x y = true))
    ∧ (∀ x y : JsNumber, 0 < x.den → 0 < y.den →
        (JsNumber.blt x y = true ↔ x.toRat < y.toRat))
    ∧ parseJsNumber "abc" = none
    ∧ evaluateFilter [("k", Value.str "abc")]
        ⟨"k", "1", FilterOp.greater, FilterTy.number⟩ = false := by
  refine ⟨?_, ?_, ?_, by decide, by decide⟩
  · intro metadata filter w hlook hnull hop
    obtain ⟨key, val, op, ty⟩ := filter
    simp only at hlook hop
    subst hop
    simp only [evaluateFilter, hlook]
    cases w <;> simp_all [jsGt_eq_true_iff]
  · intro metadata filter w hlook hnull hop
    obtain ⟨key, val, op, ty⟩ := filter
    simp only at hlook hop
    subst hop
    simp only [evaluateFilter, hlook]
    cases w <;> simp_all [jsLt_eq_true_iff]
  · intro x y hx hy
    unfold JsNumber.blt JsNumber.toRat
    rw [decide_eq_true_eq,
      div_lt_div_iff₀ (by exact_mod_cast hx) (by exact_mod_cast hy)]
    constructor <;> intro h <;> exact_mod_cast h

/-- Witness for C7 at a concrete record value `2` compared with `"1"`. -/
theorem numeric_comparison_nan_safe_witness :
    evaluateFilter [("k", Value.num ⟨2, 1⟩)]
      ⟨"k", "1", FilterOp.greater, FilterTy.number⟩ = true
    ∧ JsNumber.toRat ⟨1, 1⟩ < JsNumber.toRat ⟨2, 1⟩ :=
  ⟨(numeric_comparison_nan_safe.1 [("k", Value.num ⟨2, 1⟩)]
      ⟨"k", "1", FilterOp.greater, FilterTy.number⟩ (Value.num ⟨2, 1⟩)
      rfl (fun h => Value.noConfusion h) rfl).mpr
      ⟨⟨2, 1⟩, ⟨1, 1⟩, rfl, by decide, by decide⟩,
   (numeric_comparison_nan_safe.2.2.1 ⟨1, 1⟩ ⟨2, 1⟩ (by decide) (by decide)).mp
      (by decide)⟩

/-- Witness for C9's amended theorem at concrete sequences and indices. -/
theorem remove_predicate_splice_witness :
    ((0 : Nat) < ([⟨"a", "", FilterOp.equals, FilterTy.string⟩,
        ⟨"b", "", FilterOp.equals, FilterTy.string⟩] : List Filter).length)
    ∧ removePredicate [⟨"a", "", FilterOp.equals, FilterTy.string⟩,
        ⟨"b", "", FilterOp.equals, FilterTy.string⟩] ((0 : Nat) : Int)
      = ([⟨"a", "", FilterOp.equals, FilterTy.string⟩,
          ⟨"b", "", FilterOp.equals, FilterTy.string⟩] : List Filter).eraseIdx 0
    ∧ ((([⟨"a", "", FilterOp.equals, FilterTy.string⟩] : List Filter).length : Int) ≤ 3)
    ∧ removePredicate [⟨"a", "", FilterOp.equals, FilterTy.string⟩] 3
      = [⟨"a", "", FilterOp.equals, FilterTy.string⟩] :=
  ⟨by decide,
   remove_predicate_splice.1 _ 0 (by decide),
   by decide,
   remove_predicate_splice.2.1 _ 3 (by decide)⟩

end Discrete
